import Mathlib

set_option autoImplicit false

/-
Shallow embedding of the Waiting-Room-Manager repository core
(CSV conflict parser, participant matcher, operation engine,
round-state tracker with localStorage persistence), together with
proofs settling the specification claims.

Conventions of the embedding:
* JS `Map` (insertion-ordered, unique keys) is modelled as an
  association list `List (String × V)`; `Map.set` updates the first
  matching key in place or appends, `Map.get` returns the first match.
* JS `Set` (insertion-ordered, unique elements) is modelled as a
  `List String` kept duplicate-free by `setAdd`.
* Asynchronous provider calls are modelled by outcome oracles
  (`Nat → Bool`, success of the i-th attempt); delays are irrelevant
  to the observable results and are dropped.
* String helpers (trim / toLowerCase / split) are re-implemented by
  structural recursion over `List Char` so concrete runs reduce in
  the kernel; they agree with the JS ones on the ASCII data the
  repository handles.
-/

namespace WRM

/-- JS-style character lowering (ASCII range, as used by the repo's data). -/
def lowerChar (c : Char) : Char :=
  if 'A' ≤ c ∧ c ≤ 'Z' then Char.ofNat (c.toNat + 32) else c

/-- Model of `String.prototype.toLowerCase` on the repository's ASCII data. -/
def lowerStr (s : String) : String :=
  String.mk (s.data.map lowerChar)

/-- Drop whitespace from both ends of a character list. -/
def trimChars (cs : List Char) : List Char :=
  ((cs.dropWhile Char.isWhitespace).reverse.dropWhile Char.isWhitespace).reverse

/-- Model of `String.prototype.trim`. -/
def trimStr (s : String) : String :=
  String.mk (trimChars s.data)

/-- Split a character list at every occurrence of `sep` (JS `String.split` with a
single-character separator: `"a,,b"` gives `["a","","b"]`, `""` gives `[""]`). -/
def splitOnChar (sep : Char) : List Char → List (List Char)
  | [] => [[]]
  | c :: cs =>
    let rest := splitOnChar sep cs
    if c = sep then
      [] :: rest
    else
      match rest with
      | r :: rs => (c :: r) :: rs
      | [] => [[c]]

/-- Does `s` start with `sub`? -/
def startsWithChars : List Char → List Char → Bool
  | [], _ => true
  | _ :: _, [] => false
  | a :: asTail, b :: bs => a = b && startsWithChars asTail bs

/-- Does `s` contain `sub` as a contiguous substring? -/
def containsChars (sub : List Char) : List Char → Bool
  | [] => startsWithChars sub []
  | c :: cs => startsWithChars sub (c :: cs) || containsChars sub cs

/-- Model of `String.prototype.includes`. -/
def strContainsSub (s sub : String) : Bool :=
  containsChars sub.data s.data

/-- Source `normalizeEmail` (src/unnamed/part_006): `email.trim().toLowerCase()`. -/
def normalizeEmail (email : String) : String :=
  lowerStr (trimStr email)

/-- Character class `[^\s@]` of the source's email regex. -/
def isAtomChar (c : Char) : Bool :=
  !(c.isWhitespace || c = '@')

/-- Source `isValidEmail` (src/unnamed/part_006): test against
`^[^\s@]+@[^\s@]+\.[^\s@]+$`.  The string must be `l@r` with `l` nonempty and
`@`/whitespace-free, `r` nonempty and `@`/whitespace-free, and `r` must contain
a `.` that is neither its first nor its last character. -/
def isValidEmail (email : String) : Bool :=
  match splitOnChar '@' email.data with
  | [l, r] =>
    !l.isEmpty && l.all isAtomChar && !r.isEmpty && r.all isAtomChar &&
      ((r.drop 1).dropLast.contains '.')
  | _ => false

/-- JS `Map.get`: first entry with the given key. -/
def mapGet {V : Type} (m : List (String × V)) (k : String) : Option V :=
  match m with
  | [] => none
  | (k', v) :: rest => if k' = k then some v else mapGet rest k

/-- JS `Map.set`: overwrite the existing entry in place, else append. -/
def mapSet {V : Type} (m : List (String × V)) (k : String) (v : V) : List (String × V) :=
  match m with
  | [] => [(k, v)]
  | (k', v') :: rest => if k' = k then (k, v) :: rest else (k', v') :: mapSet rest k v

/-- Update the value stored at `k` (models mutating the object obtained from
`Map.get`), leaving the map unchanged when the key is absent. -/
def mapAdjust {V : Type} (m : List (String × V)) (k : String) (f : V → V) : List (String × V) :=
  match m with
  | [] => []
  | (k', v) :: rest => if k' = k then (k', f v) :: rest else (k', v) :: mapAdjust rest k f

/-- JS `Set.add`: append the element unless already present. -/
def setAdd (s : List String) (x : String) : List String :=
  if x ∈ s then s else s ++ [x]

/-- JS `new Set(array)`: deduplicate preserving first occurrences. -/
def setOfList (l : List String) : List String :=
  l.foldl setAdd []

/-- Participant record (src/src/types.ts `ParticipantWithEmail`); `email` is the
optional field, `none` standing for `undefined`. -/
structure ParticipantWithEmail where
  participantUUID : String
  displayName : String
  email : Option String
deriving DecidableEq

/-- JS truthiness of the optional `email` field: `undefined` and `""` are falsy. -/
def emailTruthy : Option String → Bool
  | none => false
  | some s => !(s = "")

/-- Match output (src/src/types.ts `MatchResult`). -/
structure MatchResult where
  matched : List ParticipantWithEmail
  notFound : List String
  noEmail : List ParticipantWithEmail
deriving DecidableEq

/-- The participant loop of `matchParticipants` (src/unnamed/part_002): the
accumulator carries (`matched`, `foundEmails`, `noEmail`) in push order. -/
def matchLoop (conflictEmails : List String) :
    List ParticipantWithEmail →
    List ParticipantWithEmail × List String × List ParticipantWithEmail →
    List ParticipantWithEmail × List String × List ParticipantWithEmail
  | [], acc => acc
  | p :: ps, (m, f, ne) =>
    if emailTruthy p.email then
      let n := normalizeEmail (p.email.getD "")
      if n ∈ conflictEmails then
        matchLoop conflictEmails ps (m ++ [p], setAdd f n, ne)
      else
        matchLoop conflictEmails ps (m, f, ne)
    else
      matchLoop conflictEmails ps (m, f, ne ++ [p])

/-- Source `matchParticipants` (src/unnamed/part_002).  The conflict set is
modelled as a duplicate-free list in JS-`Set` iteration order. -/
def matchParticipants (conflictEmails : List String)
    (participants : List ParticipantWithEmail) : MatchResult :=
  let out := matchLoop conflictEmails participants ([], [], [])
  { matched := out.1
    notFound := conflictEmails.filter (fun e => !decide (e ∈ out.2.1))
    noEmail := out.2.2 }

/-- Predicate deciding whether the participant loop pushes `p` onto `matched`. -/
def matchPred (conflictEmails : List String) (p : ParticipantWithEmail) : Bool :=
  emailTruthy p.email && decide (normalizeEmail (p.email.getD "") ∈ conflictEmails)

/-- CSV format tag returned by `detectCSVFormat`. -/
inductive CSVFormat where
  | rowBased
  | columnBased
  | unknown
deriving DecidableEq

/-- Source `detectCSVFormat` (src/unnamed/part_006). -/
def detectCSVFormat (headers : List String) : CSVFormat :=
  let normalizedHeaders := headers.map (fun h => trimStr (lowerStr h))
  let hasRoundId := normalizedHeaders.any (fun h => strContainsSub h "round")
  let hasEmail := normalizedHeaders.any (fun h => h = "email" || strContainsSub h "email")
  if hasRoundId && hasEmail && decide (2 ≤ normalizedHeaders.length)
      && decide (normalizedHeaders.length ≤ 3) then
    CSVFormat.rowBased
  else if hasEmail && decide (1 < normalizedHeaders.length) then
    CSVFormat.columnBased
  else
    CSVFormat.unknown

/-- A data row as delivered by Papa.parse in header mode: header name to cell. -/
def CSVRow : Type := List (String × String)

/-- JS `String(row[k])` followed by `.trim()`: an absent key reads as the string
`"undefined"` (which then fails the email/flag checks, as in JS). -/
def rowGet (row : CSVRow) (k : String) : String :=
  match mapGet row k with
  | some v => v
  | none => "undefined"

/-- Accumulated output of a parse pass (rounds / names / errors / warnings). -/
structure RowParseOutput where
  rounds : List (String × List String)
  emailToName : List (String × String)
  errors : List String
  warnings : List String
deriving DecidableEq

/-- Insert an email into a round's set, creating the round entry when absent
(the `if (!rounds.has(roundId)) rounds.set(roundId, new Set())` + `add` idiom). -/
def addToRound (rounds : List (String × List String)) (rid email : String) :
    List (String × List String) :=
  let rounds := if (mapGet rounds rid).isSome then rounds else mapSet rounds rid []
  mapSet rounds rid (setAdd ((mapGet rounds rid).getD []) email)

/-- Row loop of `parseRowBased` (src/unnamed/part_006); `rowNum` starts at 2. -/
def parseRowBasedAux : List CSVRow → Nat → RowParseOutput → RowParseOutput
  | [], _, acc => acc
  | row :: rest, rowNum, acc =>
    let keys := row.map Prod.fst
    let roundIdKey := keys.find? (fun k => strContainsSub (lowerStr k) "round")
    let emailKey := keys.find? (fun k => strContainsSub (lowerStr k) "email")
    let nameKey := keys.find? (fun k => strContainsSub (lowerStr k) "name")
    match roundIdKey, emailKey with
    | some rk, some ek =>
      let roundId := trimStr (rowGet row rk)
      let email := trimStr (rowGet row ek)
      let registeredName :=
        match nameKey with
        | some nk => trimStr (rowGet row nk)
        | none => ""
      if roundId = "" then
        parseRowBasedAux rest (rowNum + 1)
          { acc with warnings := acc.warnings ++ [s!"Row {rowNum}: Empty round_id, skipping"] }
      else if email = "" then
        parseRowBasedAux rest (rowNum + 1)
          { acc with warnings := acc.warnings ++ [s!"Row {rowNum}: Empty email, skipping"] }
      else if !isValidEmail email then
        parseRowBasedAux rest (rowNum + 1)
          { acc with warnings :=
              acc.warnings ++ [s!"Row {rowNum}: Invalid email format \"{email}\", skipping"] }
      else
        let n := normalizeEmail email
        let emailToName :=
          if ¬(registeredName = "") ∧ (mapGet acc.emailToName n).isNone then
            mapSet acc.emailToName n registeredName
          else
            acc.emailToName
        parseRowBasedAux rest (rowNum + 1)
          { acc with rounds := addToRound acc.rounds roundId n, emailToName := emailToName }
    | _, _ =>
      parseRowBasedAux rest (rowNum + 1)
        { acc with errors := acc.errors ++ [s!"Row {rowNum}: Missing round_id or email column"] }

/-- Source `parseRowBased` (src/unnamed/part_006). -/
def parseRowBased (rows : List CSVRow) : RowParseOutput :=
  parseRowBasedAux rows 2 ⟨[], [], [], []⟩

/-- Conflict-flag test of `parseColumnBased`: `"1"`, or case-insensitively
`"true"`, `"yes"`, `"x"`. -/
def isConflictValue (v : String) : Bool :=
  v = "1" || lowerStr v = "true" || lowerStr v = "yes" || lowerStr v = "x"

/-- Row loop of `parseColumnBased` (src/unnamed/part_006). -/
def parseColumnBasedAux (emailKey : String) (nameKey : Option String)
    (roundColumns : List String) : List CSVRow → Nat → RowParseOutput → RowParseOutput
  | [], _, acc => acc
  | row :: rest, rowNum, acc =>
    let email := trimStr (rowGet row emailKey)
    let registeredName :=
      match nameKey with
      | some nk => trimStr (rowGet row nk)
      | none => ""
    if email = "" then
      parseColumnBasedAux emailKey nameKey roundColumns rest (rowNum + 1)
        { acc with warnings := acc.warnings ++ [s!"Row {rowNum}: Empty email, skipping"] }
    else if !isValidEmail email then
      parseColumnBasedAux emailKey nameKey roundColumns rest (rowNum + 1)
        { acc with warnings :=
            acc.warnings ++ [s!"Row {rowNum}: Invalid email format \"{email}\", skipping"] }
    else
      let n := normalizeEmail email
      let emailToName :=
        if ¬(registeredName = "") then mapSet acc.emailToName n registeredName
        else acc.emailToName
      let rounds := roundColumns.foldl
        (fun rmap rc =>
          if isConflictValue (trimStr (rowGet row rc)) then
            mapSet rmap rc (setAdd ((mapGet rmap rc).getD []) n)
          else
            rmap)
        acc.rounds
      parseColumnBasedAux emailKey nameKey roundColumns rest (rowNum + 1)
        { acc with rounds := rounds, emailToName := emailToName }

/-- Source `parseColumnBased` (src/unnamed/part_006). -/
def parseColumnBased (rows : List CSVRow) (headers : List String) : RowParseOutput :=
  match headers.find? (fun h => strContainsSub (lowerStr h) "email") with
  | none => ⟨[], [], ["Could not find email column"], []⟩
  | some emailKey =>
    let nameKey := headers.find? (fun h => strContainsSub (lowerStr h) "name")
    let roundColumns := headers.filter (fun h =>
      !decide (h = emailKey) &&
        (match nameKey with
         | some nk => !decide (h = nk)
         | none => true))
    if roundColumns.isEmpty then
      ⟨[], [], ["No round columns found"], []⟩
    else
      let initRounds := roundColumns.foldl (fun m rc => mapSet m rc []) []
      parseColumnBasedAux emailKey nameKey roundColumns rows 2 ⟨initRounds, [], [], []⟩

/-- Line- and field-splitting stage of Papa.parse in header mode with
`skipEmptyLines` (covers the repository's unquoted, comma-separated data):
first nonempty line is the header row, remaining nonempty lines become records
keyed by the headers. -/
def csvTable (content : String) : List String × List CSVRow :=
  let lines := ((splitOnChar '\n' content.data).map String.mk).filter (fun l => !(l = ""))
  match lines with
  | [] => ([], [])
  | header :: dataLines =>
    let headers := (splitOnChar ',' header.data).map String.mk
    (headers, dataLines.map (fun l => headers.zip ((splitOnChar ',' l.data).map String.mk)))

/-- Header row of the parsed table. -/
def csvHeadersOf (content : String) : List String :=
  (csvTable content).1

/-- Data rows of the parsed table. -/
def csvRowsOf (content : String) : List CSVRow :=
  (csvTable content).2

/-- The per-format parse pass `parseCSV` dispatches to. -/
def parsedOutputOf (content : String) : RowParseOutput :=
  match detectCSVFormat (csvHeadersOf content) with
  | CSVFormat.rowBased => parseRowBased (csvRowsOf content)
  | CSVFormat.columnBased => parseColumnBased (csvRowsOf content) (csvHeadersOf content)
  | CSVFormat.unknown => ⟨[], [], [], []⟩

/-- Successful parse payload (src/src/types.ts `ParsedCSV`). -/
structure ParsedCSVData where
  format : CSVFormat
  rounds : List (String × List String)
  emailToName : List (String × String)
deriving DecidableEq

/-- Summary statistics of a parse (src/src/types.ts `CSVParseResult.stats`). -/
structure CSVStats where
  totalRows : Nat
  roundsFound : Nat
  uniqueEmails : Nat
deriving DecidableEq

/-- Parse result (src/src/types.ts `CSVParseResult`). -/
structure CSVParseResult where
  success : Bool
  data : Option ParsedCSVData
  errors : List String
  warnings : List String
  stats : CSVStats
deriving DecidableEq

/-- Distinct normalized emails across all rounds, in first-seen order. -/
def allEmails (rounds : List (String × List String)) : List String :=
  rounds.foldl (fun acc e => e.2.foldl setAdd acc) []

/-- Source `parseCSV` (src/unnamed/part_006), for inputs Papa.parse reads
without parser-level errors (such errors are only ever appended to `errors`
and never consulted for `success`). -/
def parseCSV (content : String) : CSVParseResult :=
  if (csvRowsOf content).length = 0 then
    { success := false
      data := none
      errors := ["CSV file is empty or has no valid data"]
      warnings := []
      stats := ⟨0, 0, 0⟩ }
  else if detectCSVFormat (csvHeadersOf content) = CSVFormat.unknown then
    { success := false
      data := none
      errors := ["Could not determine CSV format. Expected either row-based (round_id,email) or column-based (email,round_1,round_2,...)"]
      warnings := []
      stats := ⟨(csvRowsOf content).length, 0, 0⟩ }
  else
    let out := parsedOutputOf content
    let stats : CSVStats :=
      ⟨(csvRowsOf content).length, out.rounds.length, (allEmails out.rounds).length⟩
    if out.rounds.length = 0 then
      { success := false
        data := none
        errors := ["No valid rounds found in CSV"]
        warnings := out.warnings
        stats := stats }
    else
      { success := true
        data := some ⟨detectCSVFormat (csvHeadersOf content), out.rounds, out.emailToName⟩
        errors := out.errors
        warnings := out.warnings
        stats := stats }

/-- Engine constants (src/src/operations/waitingRoom.ts). -/
def MAX_RETRIES : Nat := 3

/-- Concurrency limit of the batch runner (src/src/operations/waitingRoom.ts). -/
def CONCURRENCY_LIMIT : Nat := 5

/-- Attempt index at which `retryWithBackoff` (src/unnamed/part_006) first
succeeds, given the per-attempt outcome oracle; `fuel` counts the attempts
still allowed after the current one, so `retrySucceedsAt outcome 0 maxRetries`
scans attempts `0 .. maxRetries` and returns `none` when all of them fail
(in which case the source rethrows the last error). -/
def retrySucceedsAt (outcome : Nat → Bool) : Nat → Nat → Option Nat
  | attempt, 0 => if outcome attempt then some attempt else none
  | attempt, fuel + 1 =>
    if outcome attempt then some attempt else retrySucceedsAt outcome (attempt + 1) fuel

/-- Number of provider calls `retryWithBackoff` issues before returning. -/
def retryCallsMade (outcome : Nat → Bool) (maxRetries : Nat) : Nat :=
  match retrySucceedsAt outcome 0 maxRetries with
  | some i => i + 1
  | none => maxRetries + 1

/-- Per-operation report (src/src/types.ts `OperationResult`). -/
structure OperationResult where
  participantUUID : String
  success : Bool
  error : Option String
  retryCount : Nat
deriving DecidableEq

/-- The `processParticipant` closure of `moveParticipantsToWaitingRoom`
(src/src/operations/waitingRoom.ts).  `outcome i` is the success of the i-th
`moveToWaitingRoom` attempt and `errMsg` the message of the last thrown error.
The source initializes `let retryCount = 0` and never increments it, so the
success branch always reports `retryCount = 0`; the catch branch reports
`retryCount = MAX_RETRIES`. -/
def moveProcessParticipant (outcome : Nat → Bool) (errMsg : String)
    (uuid : String) : OperationResult :=
  match retrySucceedsAt outcome 0 MAX_RETRIES with
  | some _ => { participantUUID := uuid, success := true, error := none, retryCount := 0 }
  | none =>
    { participantUUID := uuid, success := false, error := some errMsg
      retryCount := MAX_RETRIES }

/-- The `processParticipant` closure of `admitParticipantsFromWaitingRoom`
(src/src/operations/waitingRoom.ts): ids absent from the waiting-room snapshot
short-circuit before any provider call. -/
def admitProcessParticipant (waitingRoomUUIDs : List String) (outcome : Nat → Bool)
    (errMsg : String) (uuid : String) : OperationResult :=
  if !decide (uuid ∈ waitingRoomUUIDs) then
    { participantUUID := uuid, success := false
      error := some "Participant not in waiting room (may have left meeting)"
      retryCount := 0 }
  else
    match retrySucceedsAt outcome 0 MAX_RETRIES with
    | some _ => { participantUUID := uuid, success := true, error := none, retryCount := 0 }
    | none =>
      { participantUUID := uuid, success := false, error := some errMsg
        retryCount := MAX_RETRIES }

/-- Number of `admitFromWaitingRoom` provider calls issued for `uuid`: zero when
the id fails the snapshot pre-check (the retry loop is never entered). -/
def admitCallsMade (waitingRoomUUIDs : List String) (outcome : Nat → Bool)
    (uuid : String) : Nat :=
  if !decide (uuid ∈ waitingRoomUUIDs) then 0 else retryCallsMade outcome MAX_RETRIES

/-- Chunked loop of `processBatch` (src/unnamed/part_006): take a chunk of
`c` items, process it (`Promise.all` keeps chunk order), append, continue with
the rest.  `fuel = items.length` bounds the loop iterations, which suffices for
every positive chunk size (each iteration consumes at least one item). -/
def processBatchFuel {T R : Type} (processor : T → R) (c : Nat) :
    Nat → List T → List R
  | _, [] => []
  | 0, _ :: _ => []
  | fuel + 1, x :: xs =>
    ((x :: xs).take c).map processor ++ processBatchFuel processor c fuel ((x :: xs).drop c)

/-- Source `processBatch` (src/unnamed/part_006), restricted to the positive
concurrency limits the repository uses (the JS loop would not terminate at 0). -/
def processBatch {T R : Type} (items : List T) (processor : T → R) (c : Nat) : List R :=
  processBatchFuel processor c items.length items

/-- Source `moveParticipantsToWaitingRoom` (src/src/operations/waitingRoom.ts).
`outcome u i` is the success of attempt `i` of `moveToWaitingRoom u`; `errMsg u`
the message of its last error. -/
def moveParticipantsToWaitingRoom (outcome : String → Nat → Bool)
    (errMsg : String → String) (participants : List ParticipantWithEmail) :
    List OperationResult :=
  processBatch participants
    (fun p => moveProcessParticipant (outcome p.participantUUID) (errMsg p.participantUUID)
      p.participantUUID)
    CONCURRENCY_LIMIT

/-- Source `admitParticipantsFromWaitingRoom` (src/src/operations/waitingRoom.ts).
`waitingRoomUUIDs` is the single membership snapshot fetched once before the
batch. -/
def admitParticipantsFromWaitingRoom (waitingRoomUUIDs : List String)
    (outcome : String → Nat → Bool) (errMsg : String → String)
    (participantUUIDs : List String) : List OperationResult :=
  processBatch participantUUIDs
    (fun u => admitProcessParticipant waitingRoomUUIDs (outcome u) (errMsg u) u)
    CONCURRENCY_LIMIT

/-- Action kinds of the log (src/src/types.ts `ActionType`). -/
inductive ActionType where
  | moveToWaitingRoom
  | admitFromWaitingRoom
  | parseCsvAction
  | startRoundAction
  | endRoundAction
deriving DecidableEq

/-- Action outcomes of the log (src/src/types.ts `ActionStatus`). -/
inductive ActionStatus where
  | pending
  | success
  | failed
  | skipped
deriving DecidableEq

/-- Log entry (src/src/types.ts `ActionLogEntry`); `id` and `timestamp` are
filled in by `addActionLog`. -/
structure ActionLogEntry where
  id : String
  timestamp : Nat
  sessionId : String
  type : ActionType
  roundId : Option String
  participantUUID : Option String
  displayName : Option String
  email : Option String
  status : ActionStatus
  error : Option String
  retryCount : Option Nat
deriving DecidableEq

/-- Per-round ledger (src/src/types.ts `RoundState`). -/
structure RoundState where
  roundId : String
  movedParticipants : List String
  startedAt : Option Nat
  endedAt : Option Nat
  movedCount : Nat
  admittedCount : Nat
deriving DecidableEq

/-- Whole-store state (src/src/types.ts `AppState`). -/
structure AppState where
  sessionId : String
  parsedRounds : List (String × List String)
  emailToName : List (String × String)
  activeRounds : List (String × RoundState)
  actionLog : List ActionLogEntry
  selectedRoundId : Option String
  isProcessing : Bool
  fallbackMode : Bool
  cachedParticipants : Option (List ParticipantWithEmail)
  lastEmailFetchTime : Option Nat
  emailOverrides : List (String × String)
deriving DecidableEq

/-- Stored per-round record (src/src/types.ts `PersistedState.activeRounds`);
`roundId` is not stored, it is recovered from the record key on load. -/
structure PersistedRoundState where
  movedParticipants : List String
  startedAt : Option Nat
  endedAt : Option Nat
  movedCount : Nat
  admittedCount : Nat
deriving DecidableEq

/-- Serialized document (src/src/types.ts `PersistedState`); `Record`s are
modelled as association lists and `JSON.stringify`/`JSON.parse` as the
identity on this shape (it is lossless on strings, integers and arrays). -/
structure PersistedState where
  sessionId : String
  parsedRounds : List (String × List String)
  emailToName : List (String × String)
  activeRounds : List (String × PersistedRoundState)
  selectedRoundId : Option String
  lastUpdated : Nat
deriving DecidableEq

/-- The `Partial<AppState>` slice returned by `loadPersistedState`. -/
structure LoadedState where
  sessionId : String
  parsedRounds : List (String × List String)
  emailToName : List (String × String)
  activeRounds : List (String × RoundState)
  selectedRoundId : Option String
deriving DecidableEq

/-- Source `saveState` (src/unnamed/part_007): convert the in-memory maps and
sets to plain records/arrays; `now` is the `Date.now()` used for `lastUpdated`. -/
def saveState (state : AppState) (now : Nat) : PersistedState :=
  { sessionId := state.sessionId
    parsedRounds := state.parsedRounds.map (fun e => (e.1, e.2))
    emailToName := state.emailToName.map (fun e => (e.1, e.2))
    activeRounds := state.activeRounds.map (fun e =>
      (e.1,
        { movedParticipants := e.2.movedParticipants
          startedAt := e.2.startedAt
          endedAt := e.2.endedAt
          movedCount := e.2.movedCount
          admittedCount := e.2.admittedCount }))
    selectedRoundId := state.selectedRoundId
    lastUpdated := now }

/-- Source `loadPersistedState` (src/unnamed/part_007): rebuild `Map`s and
`Set`s from the stored records/arrays (`new Set(array)` deduplicates); each
round's `roundId` field is taken from its record key. -/
def loadPersistedState (parsed : PersistedState) : LoadedState :=
  { sessionId := parsed.sessionId
    parsedRounds := parsed.parsedRounds.map (fun e => (e.1, setOfList e.2))
    emailToName := parsed.emailToName.map (fun e => (e.1, e.2))
    activeRounds := parsed.activeRounds.map (fun e =>
      (e.1,
        { roundId := e.1
          movedParticipants := setOfList e.2.movedParticipants
          startedAt := e.2.startedAt
          endedAt := e.2.endedAt
          movedCount := e.2.movedCount
          admittedCount := e.2.admittedCount }))
    selectedRoundId := parsed.selectedRoundId }

/-- Source `addActionLog` (src/unnamed/part_007): append an entry stamped with
a fresh id, the current time and the session id. -/
def addActionLog (s : AppState) (newId : String) (now : Nat) (type : ActionType)
    (roundId : Option String) (status : ActionStatus) : AppState :=
  { s with actionLog := s.actionLog ++
      [{ id := newId, timestamp := now, sessionId := s.sessionId, type := type
         roundId := roundId, participantUUID := none, displayName := none
         email := none, status := status, error := none, retryCount := none }] }

/-- Source `startRound` (src/unnamed/part_007): create the round's record when
absent; otherwise refresh `startedAt` and clear `endedAt` in place.  Then log a
`start_round` action (`logId`/`logNow` stand for its `generateUUID()` and
`Date.now()`). -/
def startRound (s : AppState) (roundId : String) (now : Nat) (logId : String)
    (logNow : Nat) : AppState :=
  let activeRounds :=
    if (mapGet s.activeRounds roundId).isNone then
      mapSet s.activeRounds roundId
        { roundId := roundId, movedParticipants := [], startedAt := some now
          endedAt := none, movedCount := 0, admittedCount := 0 }
    else
      mapAdjust s.activeRounds roundId
        (fun r => { r with startedAt := some now, endedAt := none })
  addActionLog { s with activeRounds := activeRounds } logId logNow
    ActionType.startRoundAction (some roundId) ActionStatus.success

/-- Source `endRound` (src/unnamed/part_007): when the round has a record, set
its `endedAt` in place; in every case log an `end_round` action. -/
def endRound (s : AppState) (roundId : String) (now : Nat) (logId : String)
    (logNow : Nat) : AppState :=
  let s' :=
    match mapGet s.activeRounds roundId with
    | some _ =>
      { s with activeRounds :=
          mapAdjust s.activeRounds roundId (fun r => { r with endedAt := some now }) }
    | none => s
  addActionLog s' logId logNow ActionType.endRoundAction (some roundId)
    ActionStatus.success

/-- Number of entries of the association list carrying the key `k`. -/
def countKey {V : Type} (m : List (String × V)) (k : String) : Nat :=
  (m.filter (fun e => decide (e.1 = k))).length

/-- Validity of an in-memory store snapshot: its sets are genuine sets
(duplicate-free, as JS `Set`s always are) and each round record carries the
round id it is keyed under (the shape every store mutation produces). -/
def ValidAppState (s : AppState) : Prop :=
  (∀ e ∈ s.parsedRounds, e.2.Nodup) ∧
  (∀ e ∈ s.activeRounds, e.2.movedParticipants.Nodup ∧ e.2.roundId = e.1)

/-- The column-based CSV text of the spec's Scenario B. -/
def scenarioBText : String :=
  "email,round_1,round_2\nalice@example.com,1,0\nbob@example.com,yes,x"

/-- Participant with a capitalized email (spec Scenario C). -/
def scenarioP1 : ParticipantWithEmail :=
  ⟨"p1", "Alice", some "Alice@Example.com"⟩

/-- Participant with no email (spec Scenario C). -/
def scenarioP2 : ParticipantWithEmail :=
  ⟨"p2", "Bob", none⟩

/-- A store state with no active rounds. -/
def emptyAppState : AppState :=
  ⟨"sess", [], [], [], [], none, false, false, none, none, []⟩

/-- A store state with one active round `r1` whose moved-set is `{p1, p2}`. -/
def roundAppState : AppState :=
  { emptyAppState with
    parsedRounds := [("r1", ["alice@example.com", "bob@example.com"])]
    emailToName := [("alice@example.com", "Alice")]
    activeRounds := [("r1", ⟨"r1", ["p1", "p2"], some 10, none, 2, 0⟩)]
    selectedRoundId := some "r1" }

theorem mem_setAdd {s : List String} {a x : String} :
    x ∈ setAdd s a ↔ x ∈ s ∨ x = a := by
  unfold setAdd
  split
  · rename_i h
    constructor
    · exact Or.inl
    · rintro (hx | rfl) <;> assumption
  · simp [List.mem_append]

theorem setAdd_of_mem {s : List String} {a : String} (h : a ∈ s) :
    setAdd s a = s := by
  simp [setAdd, h]

theorem foldl_setAdd_of_nodup (l : List String) :
    ∀ acc : List String, (∀ x ∈ l, x ∉ acc) → l.Nodup →
      l.foldl setAdd acc = acc ++ l := by
  induction l with
  | nil => intro acc _ _; simp
  | cons x xs ih =>
    intro acc hdisj hnd
    have hx : x ∉ acc := hdisj x (by simp)
    have hstep : setAdd acc x = acc ++ [x] := by simp [setAdd, hx]
    rw [List.foldl_cons, hstep, ih (acc ++ [x])]
    · simp
    · intro y hy
      simp only [List.mem_append, List.mem_singleton]
      rintro (hya | rfl)
      · exact hdisj y (by simp [hy]) hya
      · exact (List.nodup_cons.mp hnd).1 hy
    · exact (List.nodup_cons.mp hnd).2

theorem setOfList_of_nodup {l : List String} (h : l.Nodup) : setOfList l = l := by
  simpa using foldl_setAdd_of_nodup l [] (by simp) h

theorem mapGet_mapSet_self {V : Type} (m : List (String × V)) (k : String) (v : V) :
    mapGet (mapSet m k v) k = some v := by
  induction m with
  | nil => simp [mapSet, mapGet]
  | cons e rest ih =>
    by_cases h : e.1 = k <;> simp [mapSet, mapGet, h, ih]

theorem mapGet_mapSet_ne {V : Type} (m : List (String × V)) (k k' : String) (v : V)
    (h : k' ≠ k) : mapGet (mapSet m k v) k' = mapGet m k' := by
  induction m with
  | nil => simp [mapSet, mapGet, Ne.symm h]
  | cons e rest ih =>
    by_cases he : e.1 = k
    · subst he
      simp [mapSet, mapGet, Ne.symm h]
    · simp only [mapSet, if_neg he]
      by_cases he' : e.1 = k' <;> simp [mapGet, he', ih]

theorem mapGet_mapAdjust_self {V : Type} (m : List (String × V)) (k : String)
    (f : V → V) {v : V} (h : mapGet m k = some v) :
    mapGet (mapAdjust m k f) k = some (f v) := by
  induction m with
  | nil => simp [mapGet] at h
  | cons e rest ih =>
    by_cases he : e.1 = k
    · simp only [mapGet, if_pos he] at h
      cases h
      simp [mapAdjust, mapGet, he]
    · simp only [mapGet, if_neg he] at h
      simp [mapAdjust, mapGet, he, ih h]

theorem mapGet_mapAdjust_ne {V : Type} (m : List (String × V)) (k k' : String)
    (f : V → V) (h : k' ≠ k) : mapGet (mapAdjust m k f) k' = mapGet m k' := by
  induction m with
  | nil => simp [mapAdjust, mapGet]
  | cons e rest ih =>
    by_cases he : e.1 = k
    · subst he
      simp [mapAdjust, mapGet, Ne.symm h]
    · simp only [mapAdjust, if_neg he]
      by_cases he' : e.1 = k' <;> simp [mapGet, he', ih]

theorem mapGet_none_iff_countKey_zero {V : Type} (m : List (String × V)) (k : String) :
    mapGet m k = none ↔ countKey m k = 0 := by
  induction m with
  | nil => simp [mapGet, countKey]
  | cons e rest ih =>
    by_cases he : e.1 = k
    · simp [mapGet, countKey, he]
    · simp [mapGet, countKey, he] at ih ⊢
      simpa using ih

theorem mapSet_of_absent {V : Type} (m : List (String × V)) (k : String) (v : V)
    (h : mapGet m k = none) : mapSet m k v = m ++ [(k, v)] := by
  induction m with
  | nil => simp [mapSet]
  | cons e rest ih =>
    by_cases he : e.1 = k
    · simp [mapGet, he] at h
    · simp only [mapGet, if_neg he] at h
      simp [mapSet, he, ih h]

theorem countKey_mapAdjust {V : Type} (m : List (String × V)) (k k' : String)
    (f : V → V) : countKey (mapAdjust m k f) k' = countKey m k' := by
  induction m with
  | nil => simp [mapAdjust]
  | cons e rest ih =>
    by_cases he : e.1 = k
    · subst he
      by_cases he' : e.1 = k' <;> simp [mapAdjust, countKey, List.filter, he']
    · simp only [mapAdjust, if_neg he]
      by_cases he' : e.1 = k' <;> simp [countKey, List.filter, he'] at ih ⊢ <;> simpa using ih

theorem countKey_append {V : Type} (m₁ m₂ : List (String × V)) (k : String) :
    countKey (m₁ ++ m₂) k = countKey m₁ k + countKey m₂ k := by
  simp [countKey, List.filter_append]

theorem processBatchFuel_eq_map {T R : Type} (processor : T → R) (c : Nat)
    (hc : 1 ≤ c) : ∀ (fuel : Nat) (items : List T), items.length ≤ fuel →
      processBatchFuel processor c fuel items = items.map processor := by
  intro fuel
  induction fuel with
  | zero =>
    intro items h
    cases items with
    | nil => simp [processBatchFuel]
    | cons x xs => simp at h
  | succ n ih =>
    intro items h
    cases items with
    | nil => simp [processBatchFuel]
    | cons x xs =>
      rw [processBatchFuel, ih ((x :: xs).drop c)
        (by
          rw [List.length_drop, List.length_cons]
          rw [List.length_cons] at h
          omega)]
      rw [← List.map_append, List.take_append_drop]

theorem processBatch_eq_map {T R : Type} (items : List T) (processor : T → R)
    (c : Nat) (hc : 1 ≤ c) : processBatch items processor c = items.map processor :=
  processBatchFuel_eq_map processor c hc items.length items (Nat.le_refl _)

theorem moveProcessParticipant_uuid (outcome : Nat → Bool) (errMsg uuid : String) :
    (moveProcessParticipant outcome errMsg uuid).participantUUID = uuid := by
  unfold moveProcessParticipant
  split <;> rfl

theorem admitProcessParticipant_uuid (waiting : List String) (outcome : Nat → Bool)
    (errMsg uuid : String) :
    (admitProcessParticipant waiting outcome errMsg uuid).participantUUID = uuid := by
  unfold admitProcessParticipant
  split
  · rfl
  · split <;> rfl

theorem matchLoop_matched (conflictEmails : List String)
    (ps : List ParticipantWithEmail) :
    ∀ m f ne, (matchLoop conflictEmails ps (m, f, ne)).1 =
      m ++ ps.filter (matchPred conflictEmails) := by
  induction ps with
  | nil => intro m f ne; simp [matchLoop]
  | cons p ps ih =>
    intro m f ne
    by_cases ht : emailTruthy p.email
    · by_cases hm : normalizeEmail (p.email.getD "") ∈ conflictEmails
      · simp [matchLoop, ht, hm, ih, matchPred]
      · simp [matchLoop, ht, hm, ih, matchPred]
    · simp [matchLoop, ht, ih, matchPred]

theorem matchLoop_noEmail (conflictEmails : List String)
    (ps : List ParticipantWithEmail) :
    ∀ m f ne, (matchLoop conflictEmails ps (m, f, ne)).2.2 =
      ne ++ ps.filter (fun p => !emailTruthy p.email) := by
  induction ps with
  | nil => intro m f ne; simp [matchLoop]
  | cons p ps ih =>
    intro m f ne
    by_cases ht : emailTruthy p.email
    · by_cases hm : normalizeEmail (p.email.getD "") ∈ conflictEmails
      · simp [matchLoop, ht, hm, ih]
      · simp [matchLoop, ht, hm, ih]
    · simp [matchLoop, ht, ih]

theorem matchLoop_found (conflictEmails : List String)
    (ps : List ParticipantWithEmail) :
    ∀ m f ne x, x ∈ (matchLoop conflictEmails ps (m, f, ne)).2.1 ↔
      x ∈ f ∨ ∃ p ∈ ps, matchPred conflictEmails p = true ∧
        normalizeEmail (p.email.getD "") = x := by
  induction ps with
  | nil => intro m f ne x; simp [matchLoop]
  | cons p ps ih =>
    intro m f ne x
    by_cases ht : emailTruthy p.email
    · by_cases hm : normalizeEmail (p.email.getD "") ∈ conflictEmails
      · rw [matchLoop, if_pos ht, if_pos hm, ih]
        simp only [mem_setAdd, List.mem_cons, matchPred]
        constructor
        · rintro ((hx | rfl) | ⟨q, hq, hql, hqr⟩)
          · exact Or.inl hx
          · exact Or.inr ⟨p, Or.inl rfl, by simp [ht, hm], rfl⟩
          · exact Or.inr ⟨q, Or.inr hq, hql, hqr⟩
        · rintro (hx | ⟨q, (rfl | hq), hql, hqr⟩)
          · exact Or.inl (Or.inl hx)
          · exact Or.inl (Or.inr hqr.symm)
          · exact Or.inr ⟨q, hq, hql, hqr⟩
      · rw [matchLoop, if_pos ht, if_neg hm, ih]
        simp only [List.mem_cons, matchPred]
        constructor
        · rintro (hx | ⟨q, hq, hql, hqr⟩)
          · exact Or.inl hx
          · exact Or.inr ⟨q, Or.inr hq, hql, hqr⟩
        · rintro (hx | ⟨q, (rfl | hq), hql, hqr⟩)
          · exact Or.inl hx
          · simp [ht, hm] at hql
          · exact Or.inr ⟨q, hq, hql, hqr⟩
    · rw [matchLoop, if_neg ht, ih]
      simp only [List.mem_cons, matchPred]
      constructor
      · rintro (hx | ⟨q, hq, hql, hqr⟩)
        · exact Or.inl hx
        · exact Or.inr ⟨q, Or.inr hq, hql, hqr⟩
      · rintro (hx | ⟨q, (rfl | hq), hql, hqr⟩)
        · exact Or.inl hx
        · simp [ht] at hql
        · exact Or.inr ⟨q, hq, hql, hqr⟩

theorem matchParticipants_matched (conflictEmails : List String)
    (ps : List ParticipantWithEmail) :
    (matchParticipants conflictEmails ps).matched =
      ps.filter (matchPred conflictEmails) := by
  unfold matchParticipants
  simpa using matchLoop_matched conflictEmails ps [] [] []

theorem matchParticipants_noEmail (conflictEmails : List String)
    (ps : List ParticipantWithEmail) :
    (matchParticipants conflictEmails ps).noEmail =
      ps.filter (fun p => !emailTruthy p.email) := by
  unfold matchParticipants
  simpa using matchLoop_noEmail conflictEmails ps [] [] []

theorem matchParticipants_notFound (conflictEmails : List String)
    (ps : List ParticipantWithEmail) (x : String) :
    x ∈ (matchParticipants conflictEmails ps).notFound ↔
      x ∈ conflictEmails ∧
        ¬∃ p ∈ ps, emailTruthy p.email = true ∧
          normalizeEmail (p.email.getD "") = x := by
  unfold matchParticipants
  simp only [List.mem_filter, Bool.not_eq_true', decide_eq_false_iff_not]
  rw [matchLoop_found conflictEmails ps [] [] [] x]
  simp only [List.not_mem_nil, false_or]
  constructor
  · rintro ⟨hc, hnf⟩
    refine ⟨hc, ?_⟩
    rintro ⟨p, hp, ht, hn⟩
    exact hnf ⟨p, hp, by simp [matchPred, ht, hn, hc], hn⟩
  · rintro ⟨hc, hnf⟩
    refine ⟨hc, ?_⟩
    rintro ⟨p, hp, hpred, hn⟩
    simp only [matchPred, Bool.and_eq_true, decide_eq_true_eq] at hpred
    exact hnf ⟨p, hp, hpred.1, hn⟩

theorem startRound_activeRounds (s : AppState) (rid : String) (now : Nat)
    (logId : String) (logNow : Nat) :
    (startRound s rid now logId logNow).activeRounds =
      if (mapGet s.activeRounds rid).isNone then
        mapSet s.activeRounds rid
          { roundId := rid, movedParticipants := [], startedAt := some now
            endedAt := none, movedCount := 0, admittedCount := 0 }
      else
        mapAdjust s.activeRounds rid
          (fun r => { r with startedAt := some now, endedAt := none }) := rfl

/-- C1: concrete run of the retry engine.  A move whose provider call fails
exactly once (`k = 1 < maxRetries`) and then succeeds is reported with
`success = true` but `retryCount = 0` — the source initializes the local
`retryCount` to `0` and never increments it — while an operation failing on
every attempt is reported with `success = false` and
`retryCount = MAX_RETRIES`, as the claim states. -/
theorem move_retryCount_at_failing_input :
    (moveParticipantsToWaitingRoom (fun _ n => decide (1 ≤ n))
        (fun _ => "transient error") [scenarioP1]).map
        (fun r => (r.success, r.retryCount)) = [(true, 0)] ∧
    (moveProcessParticipant (fun _ => false) "transient error" "p2").success = false ∧
    (moveProcessParticipant (fun _ => false) "transient error" "p2").retryCount
      = MAX_RETRIES := by
  decide

/-- C2 counterexample: the Scenario B text is not parsed as column-based — its
three headers contain both "round" and "email", so `detectCSVFormat` labels it
row-based. -/
theorem scenarioB_not_columnBased :
    ¬ (parseCSV scenarioBText).data.map (fun d => d.format)
        = some CSVFormat.columnBased := by
  decide

/-- C2 amended: parsing the Scenario B text succeeds, but with format
row-based: the `round_1` column is read as the round-id column, so the rounds
are `{"1" ↦ {alice@example.com}, "yes" ↦ {bob@example.com}}` and the `round_2`
column is ignored. -/
theorem scenarioB_parse_result :
    parseCSV scenarioBText =
      { success := true
        data := some
          ⟨CSVFormat.rowBased,
            [("1", ["alice@example.com"]), ("yes", ["bob@example.com"])], []⟩
        errors := []
        warnings := []
        stats := ⟨2, 2, 2⟩ } := by
  decide

/-- C3: `parseCSV` reports `success = false` exactly when the input has zero
data rows, or the header format is undetected, or the round map produced by
the per-format pass is empty; rows skipped with warnings alone never block
success. -/
theorem parseCSV_success_false_iff (content : String) :
    (parseCSV content).success = false ↔
      ((csvRowsOf content).length = 0 ∨
        detectCSVFormat (csvHeadersOf content) = CSVFormat.unknown ∨
        (parsedOutputOf content).rounds.length = 0) := by
  unfold parseCSV
  split_ifs with h1 h2
  · simp [h1]
  · simp [h2]
  · simp only []
    split_ifs with h3
    · simp [h3]
    · simp [h1, h2, h3]

/-- C4: serializing a valid store snapshot with `saveState` and deserializing
it with `loadPersistedState` restores the parsed-rounds map, the name map, the
active-round-state map, the session id and the selected round id exactly (the
association-list model makes equal content literally equal). -/
theorem saveState_loadState_roundTrip (s : AppState) (now : Nat)
    (h : ValidAppState s) :
    loadPersistedState (saveState s now) =
      { sessionId := s.sessionId
        parsedRounds := s.parsedRounds
        emailToName := s.emailToName
        activeRounds := s.activeRounds
        selectedRoundId := s.selectedRoundId } := by
  obtain ⟨h1, h2⟩ := h
  unfold saveState loadPersistedState
  simp only [List.map_map, Function.comp]
  congr 1
  · rw [List.map_congr_left (g := fun e => e), List.map_id']
    intro e he
    simp [setOfList_of_nodup (h1 e he)]
  · exact List.map_id'' (fun x => rfl) _
  · rw [List.map_congr_left (g := fun e => e), List.map_id']
    intro e he
    obtain ⟨hn, hid⟩ := h2 e he
    obtain ⟨k, r⟩ := e
    obtain ⟨rid, mp, sa, ea, mc, ac⟩ := r
    simp only at hn hid
    simp [setOfList_of_nodup hn, hid]

/-- C4 witness: the round trip at a concrete valid store snapshot. -/
theorem saveState_loadState_roundTrip_witness :
    ValidAppState roundAppState ∧
      loadPersistedState (saveState roundAppState 42) =
        { sessionId := roundAppState.sessionId
          parsedRounds := roundAppState.parsedRounds
          emailToName := roundAppState.emailToName
          activeRounds := roundAppState.activeRounds
          selectedRoundId := roundAppState.selectedRoundId } :=
  ⟨by unfold ValidAppState; decide,
   saveState_loadState_roundTrip roundAppState 42 (by unfold ValidAppState; decide)⟩

/-- C5: an admit target absent from the waiting-room snapshot fetched once for
the batch is reported failed with the "not in waiting room" reason and
`retryCount = 0`, and no `admitFromWaitingRoom` provider call is issued for it
— whatever the outcome oracle would have answered. -/
theorem admit_absent_shortCircuit (waiting : List String)
    (outcome : String → Nat → Bool) (errMsg : String → String)
    (uuids : List String) (i : Nat) (h : i < uuids.length)
    (habs : uuids.get ⟨i, h⟩ ∉ waiting) :
    ∃ h2 : i < (admitParticipantsFromWaitingRoom waiting outcome errMsg uuids).length,
      (admitParticipantsFromWaitingRoom waiting outcome errMsg uuids).get ⟨i, h2⟩ =
        { participantUUID := uuids.get ⟨i, h⟩
          success := false
          error := some "Participant not in waiting room (may have left meeting)"
          retryCount := 0 } ∧
      admitCallsMade waiting (outcome (uuids.get ⟨i, h⟩)) (uuids.get ⟨i, h⟩) = 0 := by
  have hmap : admitParticipantsFromWaitingRoom waiting outcome errMsg uuids =
      uuids.map (fun u => admitProcessParticipant waiting (outcome u) (errMsg u) u) :=
    processBatch_eq_map uuids _ CONCURRENCY_LIMIT (by decide)
  have hlen : (admitParticipantsFromWaitingRoom waiting outcome errMsg uuids).length
      = uuids.length := by
    rw [hmap, List.length_map]
  have habs2 : ¬ uuids.get ⟨i, h⟩ ∈ waiting := habs
  refine ⟨hlen ▸ h, ?_, ?_⟩
  · have hget : (admitParticipantsFromWaitingRoom waiting outcome errMsg uuids).get
        ⟨i, hlen ▸ h⟩ =
        admitProcessParticipant waiting (outcome (uuids.get ⟨i, h⟩))
          (errMsg (uuids.get ⟨i, h⟩)) (uuids.get ⟨i, h⟩) := by
      rw [List.get_of_eq hmap]
      simp
    rw [hget]
    unfold admitProcessParticipant
    rw [if_pos]
    simpa using habs2
  · unfold admitCallsMade
    rw [if_pos]
    simpa using habs2

/-- C5 witness: a concrete admit batch whose single target is absent from the
snapshot although its admit call would have succeeded on the first attempt. -/
theorem admit_absent_shortCircuit_witness :
    ∃ h2 : 0 < (admitParticipantsFromWaitingRoom ["w1"] (fun _ _ => true)
        (fun _ => "e") ["p9"]).length,
      (admitParticipantsFromWaitingRoom ["w1"] (fun _ _ => true)
          (fun _ => "e") ["p9"]).get ⟨0, h2⟩ =
        { participantUUID := "p9"
          success := false
          error := some "Participant not in waiting room (may have left meeting)"
          retryCount := 0 } ∧
      admitCallsMade ["w1"] ((fun (_ : String) (_ : Nat) => true) "p9") "p9" = 0 := by
  simpa using admit_absent_shortCircuit ["w1"] (fun _ _ => true) (fun _ => "e")
    ["p9"] 0 (by decide) (by decide)

/-- C6: starting a round twice before any move leaves exactly one round-state
record for it, with an empty moved-set; and starting an already-existing round
keeps its moved-set exactly (no removal, no wipe, no duplication of records). -/
theorem startRound_no_duplicate_no_wipe (s : AppState) (rid : String)
    (now1 now2 : Nat) (id1 id2 : String) (ln1 ln2 : Nat) :
    (mapGet s.activeRounds rid = none →
      countKey (startRound (startRound s rid now1 id1 ln1) rid now2 id2 ln2).activeRounds
          rid = 1 ∧
      ∃ r, mapGet (startRound (startRound s rid now1 id1 ln1) rid now2 id2 ln2).activeRounds
          rid = some r ∧ r.movedParticipants = []) ∧
    (∀ r, mapGet s.activeRounds rid = some r →
      countKey (startRound s rid now1 id1 ln1).activeRounds rid
          = countKey s.activeRounds rid ∧
      ∃ r2, mapGet (startRound s rid now1 id1 ln1).activeRounds rid = some r2 ∧
        r2.movedParticipants = r.movedParticipants) := by
  constructor
  · intro h0
    have e1 : (startRound s rid now1 id1 ln1).activeRounds =
        mapSet s.activeRounds rid
          { roundId := rid, movedParticipants := [], startedAt := some now1
            endedAt := none, movedCount := 0, admittedCount := 0 } := by
      rw [startRound_activeRounds, if_pos]
      simp [h0]
    have e2 : (startRound (startRound s rid now1 id1 ln1) rid now2 id2 ln2).activeRounds =
        mapAdjust
          (mapSet s.activeRounds rid
            { roundId := rid, movedParticipants := [], startedAt := some now1
              endedAt := none, movedCount := 0, admittedCount := 0 })
          rid (fun r => { r with startedAt := some now2, endedAt := none }) := by
      rw [startRound_activeRounds, e1, if_neg]
      simp [mapGet_mapSet_self]
    constructor
    · have hz : countKey s.activeRounds rid = 0 :=
        (mapGet_none_iff_countKey_zero _ _).mp h0
      rw [e2, countKey_mapAdjust, mapSet_of_absent _ _ _ h0, countKey_append, hz]
      simp [countKey]
    · exact ⟨_, by
        rw [e2]
        exact mapGet_mapAdjust_self _ _ _ (mapGet_mapSet_self _ _ _), rfl⟩
  · intro r hr
    have e1 : (startRound s rid now1 id1 ln1).activeRounds =
        mapAdjust s.activeRounds rid
          (fun rr => { rr with startedAt := some now1, endedAt := none }) := by
      rw [startRound_activeRounds, if_neg]
      simp [hr]
    constructor
    · rw [e1, countKey_mapAdjust]
    · exact ⟨{ r with startedAt := some now1, endedAt := none }, by
        rw [e1]
        exact mapGet_mapAdjust_self _ _ _ hr, rfl⟩

/-- C6 witness: the double start on a fresh round and a start on a round whose
moved-set is `{p1, p2}`. -/
theorem startRound_no_duplicate_no_wipe_witness :
    (countKey (startRound (startRound emptyAppState "r1" 1 "a" 1) "r1" 2 "b" 2).activeRounds
        "r1" = 1 ∧
      ∃ r, mapGet (startRound (startRound emptyAppState "r1" 1 "a" 1) "r1" 2 "b" 2).activeRounds
          "r1" = some r ∧ r.movedParticipants = []) ∧
    (countKey (startRound roundAppState "r1" 3 "c" 3).activeRounds "r1"
        = countKey roundAppState.activeRounds "r1" ∧
      ∃ r2, mapGet (startRound roundAppState "r1" 3 "c" 3).activeRounds "r1" = some r2 ∧
        r2.movedParticipants =
          (⟨"r1", ["p1", "p2"], some 10, none, 2, 0⟩ : RoundState).movedParticipants) :=
  ⟨(startRound_no_duplicate_no_wipe emptyAppState "r1" 1 2 "a" "b" 1 2).1 (by decide),
   (startRound_no_duplicate_no_wipe roundAppState "r1" 3 3 "c" "c" 3 3).2
     ⟨"r1", ["p1", "p2"], some 10, none, 2, 0⟩ (by decide)⟩

/-- C7: `matchParticipants` sends every participant with a falsy email to
`noEmail` (never to `matched`), sends every participant whose normalized email
lies in the conflict set to `matched`, and `notFound` holds exactly the
conflict emails matched by no participant; Scenario C evaluates as claimed. -/
theorem matchParticipants_partition (c : List String)
    (ps : List ParticipantWithEmail) :
    (∀ p ∈ ps, emailTruthy p.email = false →
      p ∈ (matchParticipants c ps).noEmail ∧ ¬ p ∈ (matchParticipants c ps).matched) ∧
    (∀ p ∈ ps, emailTruthy p.email = true →
      normalizeEmail (p.email.getD "") ∈ c → p ∈ (matchParticipants c ps).matched) ∧
    (∀ e, e ∈ (matchParticipants c ps).notFound ↔
      e ∈ c ∧ ¬∃ p ∈ ps, emailTruthy p.email = true ∧
        normalizeEmail (p.email.getD "") = e) ∧
    matchParticipants ["alice@example.com"] [scenarioP1, scenarioP2] =
      { matched := [scenarioP1], notFound := [], noEmail := [scenarioP2] } := by
  refine ⟨?_, ?_, fun e => matchParticipants_notFound c ps e, by decide⟩
  · intro p hp hfalse
    constructor
    · rw [matchParticipants_noEmail, List.mem_filter]
      exact ⟨hp, by simp [hfalse]⟩
    · rw [matchParticipants_matched, List.mem_filter]
      rintro ⟨-, hpred⟩
      simp [matchPred, hfalse] at hpred
  · intro p hp htrue hmem
    rw [matchParticipants_matched, List.mem_filter]
    exact ⟨hp, by simp [matchPred, htrue, hmem]⟩

/-- C7 witness: the partition facts at the Scenario C inputs. -/
theorem matchParticipants_partition_witness :
    scenarioP2 ∈ (matchParticipants ["alice@example.com"] [scenarioP1, scenarioP2]).noEmail ∧
    scenarioP1 ∈ (matchParticipants ["alice@example.com"] [scenarioP1, scenarioP2]).matched ∧
    ¬ "alice@example.com" ∈
      (matchParticipants ["alice@example.com"] [scenarioP1, scenarioP2]).notFound := by
  have hth := matchParticipants_partition ["alice@example.com"] [scenarioP1, scenarioP2]
  refine ⟨(hth.1 scenarioP2 (by decide) (by decide)).1,
    hth.2.1 scenarioP1 (by decide) (by decide) (by decide), ?_⟩
  intro hmem
  exact ((hth.2.2.1 "alice@example.com").mp hmem).2
    ⟨scenarioP1, by decide, by decide, by decide⟩

/-- C8: on permuted participant lists, `matchParticipants` yields the same
`matched`, `noEmail` and `notFound` contents (the `notFound` lists are even
equal, since they follow the conflict set's own order). -/
theorem matchParticipants_perm_invariant (c : List String)
    (ps1 ps2 : List ParticipantWithEmail) (h : List.Perm ps1 ps2) :
    (∀ p, p ∈ (matchParticipants c ps1).matched ↔ p ∈ (matchParticipants c ps2).matched) ∧
    (∀ p, p ∈ (matchParticipants c ps1).noEmail ↔ p ∈ (matchParticipants c ps2).noEmail) ∧
    (matchParticipants c ps1).notFound = (matchParticipants c ps2).notFound := by
  refine ⟨?_, ?_, ?_⟩
  · intro p
    rw [matchParticipants_matched, matchParticipants_matched]
    exact (h.filter _).mem_iff
  · intro p
    rw [matchParticipants_noEmail, matchParticipants_noEmail]
    exact (h.filter _).mem_iff
  · unfold matchParticipants
    simp only []
    apply List.filter_congr
    intro e he
    have h1 := matchLoop_found c ps1 [] [] [] e
    have h2 := matchLoop_found c ps2 [] [] [] e
    congr 1
    rw [decide_eq_decide, h1, h2]
    simp only [List.not_mem_nil, false_or]
    constructor
    · rintro ⟨p, hp, hpred, hn⟩
      exact ⟨p, h.mem_iff.mp hp, hpred, hn⟩
    · rintro ⟨p, hp, hpred, hn⟩
      exact ⟨p, h.mem_iff.mpr hp, hpred, hn⟩

/-- C8 witness: swapping the two Scenario C participants leaves all three
result sets unchanged. -/
theorem matchParticipants_perm_invariant_witness :
    (∀ p, p ∈ (matchParticipants ["alice@example.com"] [scenarioP1, scenarioP2]).matched ↔
      p ∈ (matchParticipants ["alice@example.com"] [scenarioP2, scenarioP1]).matched) ∧
    (∀ p, p ∈ (matchParticipants ["alice@example.com"] [scenarioP1, scenarioP2]).noEmail ↔
      p ∈ (matchParticipants ["alice@example.com"] [scenarioP2, scenarioP1]).noEmail) ∧
    (matchParticipants ["alice@example.com"] [scenarioP1, scenarioP2]).notFound =
      (matchParticipants ["alice@example.com"] [scenarioP2, scenarioP1]).notFound :=
  matchParticipants_perm_invariant ["alice@example.com"] [scenarioP1, scenarioP2]
    [scenarioP2, scenarioP1] (List.Perm.swap scenarioP2 scenarioP1 [])

/-- C9 counterexample: ending the round `r1` (which has a round-state record)
changes the `actionLog` field of the store — an `end_round` entry is appended
— so not every other field of the store is left unchanged. -/
theorem endRound_changes_actionLog :
    mapGet roundAppState.activeRounds "r1" ≠ none ∧
    (endRound roundAppState "r1" 5 "log1" 6).actionLog ≠ roundAppState.actionLog := by
  decide

/-- C9 amended: for a round with an existing record, `endRound` sets that
round's `endedAt`, keeps its moved-set, keeps every other round's state, and
keeps every other field of the store unchanged except the action log, to which
exactly one `end_round` entry is appended. -/
theorem endRound_frame (s : AppState) (rid : String) (r : RoundState) (now : Nat)
    (logId : String) (logNow : Nat) (h : mapGet s.activeRounds rid = some r) :
    mapGet (endRound s rid now logId logNow).activeRounds rid
        = some { r with endedAt := some now } ∧
    ({ r with endedAt := some now } : RoundState).movedParticipants
        = r.movedParticipants ∧
    (∀ k, k ≠ rid → mapGet (endRound s rid now logId logNow).activeRounds k
        = mapGet s.activeRounds k) ∧
    (endRound s rid now logId logNow).sessionId = s.sessionId ∧
    (endRound s rid now logId logNow).parsedRounds = s.parsedRounds ∧
    (endRound s rid now logId logNow).emailToName = s.emailToName ∧
    (endRound s rid now logId logNow).selectedRoundId = s.selectedRoundId ∧
    (endRound s rid now logId logNow).isProcessing = s.isProcessing ∧
    (endRound s rid now logId logNow).fallbackMode = s.fallbackMode ∧
    (endRound s rid now logId logNow).cachedParticipants = s.cachedParticipants ∧
    (endRound s rid now logId logNow).lastEmailFetchTime = s.lastEmailFetchTime ∧
    (endRound s rid now logId logNow).emailOverrides = s.emailOverrides ∧
    (endRound s rid now logId logNow).actionLog = s.actionLog ++
      [{ id := logId, timestamp := logNow, sessionId := s.sessionId
         type := ActionType.endRoundAction, roundId := some rid
         participantUUID := none, displayName := none, email := none
         status := ActionStatus.success, error := none, retryCount := none }] := by
  unfold endRound addActionLog
  rw [h]
  refine ⟨?_, rfl, ?_, rfl, rfl, rfl, rfl, rfl, rfl, rfl, rfl, rfl, rfl⟩
  · exact mapGet_mapAdjust_self _ _ _ h
  · intro k hk
    exact mapGet_mapAdjust_ne _ _ _ _ hk

/-- C9 witness: ending round `r1` of the concrete store. -/
theorem endRound_frame_witness :
    mapGet (endRound roundAppState "r1" 5 "L" 6).activeRounds "r1" =
      some { roundId := "r1", movedParticipants := ["p1", "p2"], startedAt := some 10
             endedAt := some 5, movedCount := 2, admittedCount := 0 } ∧
    (endRound roundAppState "r1" 5 "L" 6).parsedRounds = roundAppState.parsedRounds :=
  have hfull := endRound_frame roundAppState "r1"
    ⟨"r1", ["p1", "p2"], some 10, none, 2, 0⟩ 5 "L" 6 (by decide)
  ⟨hfull.1, hfull.2.2.2.2.1⟩

/-- C10: the batch runner returns exactly one result per input item in input
order, and both waiting-room batch operations label the i-th result with the
i-th input's participant UUID. -/
theorem batch_one_result_per_item :
    (∀ (T R : Type) (items : List T) (processor : T → R),
      processBatch items processor CONCURRENCY_LIMIT = items.map processor) ∧
    (∀ (outcome : String → Nat → Bool) (errMsg : String → String)
        (ps : List ParticipantWithEmail),
      (moveParticipantsToWaitingRoom outcome errMsg ps).length = ps.length ∧
      (moveParticipantsToWaitingRoom outcome errMsg ps).map
          (fun r => r.participantUUID) = ps.map (fun p => p.participantUUID)) ∧
    (∀ (waiting : List String) (outcome : String → Nat → Bool)
        (errMsg : String → String) (uuids : List String),
      (admitParticipantsFromWaitingRoom waiting outcome errMsg uuids).length
          = uuids.length ∧
      (admitParticipantsFromWaitingRoom waiting outcome errMsg uuids).map
          (fun r => r.participantUUID) = uuids) := by
  refine ⟨?_, ?_, ?_⟩
  · intro T R items processor
    exact processBatch_eq_map items processor CONCURRENCY_LIMIT (by decide)
  · intro outcome errMsg ps
    have hm : moveParticipantsToWaitingRoom outcome errMsg ps =
        ps.map (fun p => moveProcessParticipant (outcome p.participantUUID)
          (errMsg p.participantUUID) p.participantUUID) :=
      processBatch_eq_map ps _ CONCURRENCY_LIMIT (by decide)
    constructor
    · rw [hm, List.length_map]
    · rw [hm, List.map_map]
      apply List.map_congr_left
      intro p _
      simp [Function.comp, moveProcessParticipant_uuid]
  · intro waiting outcome errMsg uuids
    have hm : admitParticipantsFromWaitingRoom waiting outcome errMsg uuids =
        uuids.map (fun u => admitProcessParticipant waiting (outcome u) (errMsg u) u) :=
      processBatch_eq_map uuids _ CONCURRENCY_LIMIT (by decide)
    constructor
    · rw [hm, List.length_map]
    · rw [hm, List.map_map]
      exact List.map_id''
        (fun u => by simp [Function.comp, admitProcessParticipant_uuid]) uuids

end WRM
